import Mathlib

/-!
Shallow embedding of `entity/env/env.go` from the evans repository.

The Go file implements the navigation-and-selection state manager of an
interactive gRPC client: selecting packages and services, caching resolved
packages, looking up services / messages / RPCs by name, maintaining a
header store, and deriving a dotted DSN address string.

Modelling conventions:
- Go structs and the `entity.Service` interface (which only exposes
  `Name()` and `RPCs()`) become Lean structures.
- The Go maps `cache.pkg : map[string]*entity.Package` and the
  `sync.Map` of headers become association lists with overwrite-on-insert,
  matching map semantics (at most one binding per key, lookups by key).
- Fallible methods return `Except EnvErr` (mutating ones paired with the
  resulting state); query methods that can dereference a missing cache
  entry (a nil-map dereference panic in Go) return a `QRes` with an
  explicit `panic` constructor.
- `errors.Wrapf(err, fmt, args)` from pkg/errors keeps the underlying
  error kind (as seen by `errors.Cause`) and prepends the formatted
  message followed by `": "` to the message text; `wrapf` models that.
- `sort.Slice` with the comparator `Key i < Key j` sorts into
  nondecreasing key order; it is modelled by `List.insertionSort` on the
  key order.
-/

namespace Evans

/-- RPC entity: opaque except for its name (`entity.RPC`). -/
structure RPC where
  name : String
deriving DecidableEq, Repr

/-- Message entity: opaque except for its name (`entity.Message`). -/
structure Message where
  name : String
deriving DecidableEq, Repr

/-- Service entity: exposes its name and its RPC list (`entity.Service`). -/
structure Service where
  name : String
  rpcs : List RPC
deriving DecidableEq, Repr

/-- Header entity: a key/value pair (`entity.Header`). -/
structure Header where
  key : String
  val : String
deriving DecidableEq, Repr

/-- Package entity: name plus owned services and messages (`entity.Package`). -/
structure Package where
  name : String
  services : List Service
  messages : List Message
deriving DecidableEq, Repr

/-- The seven error values declared at the top of env.go. -/
inductive ErrKind where
  | packageUnselected
  | serviceUnselected
  | unknownPackage
  | unknownService
  | invalidServiceName
  | invalidMessageName
  | invalidRPCName
deriving DecidableEq, Repr

/-- An error as produced by pkg/errors: an underlying kind (the value
`errors.Cause` returns) together with the accumulated message text. -/
structure EnvErr where
  kind : ErrKind
  msg : String
deriving DecidableEq, Repr

/-- ErrPackageUnselected. -/
def errPackageUnselected : EnvErr := ⟨.packageUnselected, "package unselected"⟩

/-- ErrServiceUnselected. -/
def errServiceUnselected : EnvErr := ⟨.serviceUnselected, "service unselected"⟩

/-- ErrUnknownPackage. -/
def errUnknownPackage : EnvErr := ⟨.unknownPackage, "unknown package"⟩

/-- ErrUnknownService. -/
def errUnknownService : EnvErr := ⟨.unknownService, "unknown service"⟩

/-- ErrInvalidServiceName. -/
def errInvalidServiceName : EnvErr := ⟨.invalidServiceName, "invalid service name"⟩

/-- ErrInvalidMessageName. -/
def errInvalidMessageName : EnvErr := ⟨.invalidMessageName, "invalid message name"⟩

/-- ErrInvalidRPCName. -/
def errInvalidRPCName : EnvErr := ⟨.invalidRPCName, "invalid RPC name"⟩

/-- errors.Wrapf / errors.Wrap: prepend a message, keep the cause. -/
def wrapf (m : String) (e : EnvErr) : EnvErr := ⟨e.kind, m ++ ": " ++ e.msg⟩

/-- Result of a query method: success, a Go error, or a runtime panic
(the nil-map dereference the comments in Services/Messages warn about). -/
inductive QRes (α : Type) where
  | ok : α → QRes α
  | error : EnvErr → QRes α
  | panic : QRes α
deriving DecidableEq, Repr

instance {ε α : Type} [DecidableEq ε] [DecidableEq α] : DecidableEq (Except ε α) := fun x y =>
  match x, y with
  | .ok a, .ok b =>
    if h : a = b then isTrue (by rw [h]) else isFalse (fun hh => h (by injection hh))
  | .ok _, .error _ => isFalse (fun hh => Except.noConfusion hh)
  | .error _, .ok _ => isFalse (fun hh => Except.noConfusion hh)
  | .error a, .error b =>
    if h : a = b then isTrue (by rw [h]) else isFalse (fun hh => h (by injection hh))

/-- Insert into the header map, overwriting any existing binding for the
key (sync.Map.Store semantics). -/
def storeInsert (k : String) (h : Header) : List (String × Header) → List (String × Header)
  | [] => [(k, h)]
  | (k₀, h₀) :: rest => if k₀ = k then (k, h) :: rest else (k₀, h₀) :: storeInsert k h rest

/-- Delete a key from the header map (sync.Map.Delete semantics). -/
def storeDelete (k : String) : List (String × Header) → List (String × Header)
  | [] => []
  | (k₀, h₀) :: rest => if k₀ = k then rest else (k₀, h₀) :: storeDelete k rest

/-- Lookup in the header map. -/
def storeLookup (k : String) : List (String × Header) → Option Header
  | [] => none
  | (k₀, h₀) :: rest => if k₀ = k then some h₀ else storeLookup k rest

/-- Insert into the package cache map, overwriting any existing binding
(Go `e.cache.pkg[name] = p`). -/
def cacheInsert (k : String) (p : Package) : List (String × Package) → List (String × Package)
  | [] => [(k, p)]
  | (k₀, p₀) :: rest => if k₀ = k then (k, p) :: rest else (k₀, p₀) :: cacheInsert k p rest

/-- Lookup in the package cache map (Go `e.cache.pkg[name]`; `none` is the
nil pointer a missing key yields). -/
def cacheLookup (k : String) : List (String × Package) → Option Package
  | [] => none
  | (k₀, p₀) :: rest => if k₀ = k then some p₀ else cacheLookup k rest

/-- The Env struct: the catalog, the selection state (`state.currentPackage`,
`state.currentService`), the header store (`option.headers`) and the package
cache (`cache.pkg`; the unused `cache.pkgList` field is omitted). -/
structure Env where
  pkgs : List Package
  currentPackage : String
  currentService : String
  headers : List (String × Header)
  cachePkg : List (String × Package)
deriving DecidableEq, Repr

/-- Env.AddHeader: store a (copy of the pointed-to) header under its key. -/
def Env.addHeader (e : Env) (h : Header) : Env :=
  { e with headers := storeInsert h.key h e.headers }

/-- Env.RemoveHeader: delete the binding for the key, if any. -/
def Env.removeHeader (e : Env) (k : String) : Env :=
  { e with headers := storeDelete k e.headers }

/-- New: fresh Env with the given catalog, empty selection state and empty
cache, then AddHeader for each default header (which copies key and value
into a fresh Header). -/
def Env.new (pkgs : List Package) (defaultHeaders : List Header) : Env :=
  defaultHeaders.foldl (fun e h => e.addHeader ⟨h.key, h.val⟩)
    { pkgs := pkgs
      currentPackage := ""
      currentService := ""
      headers := []
      cachePkg := [] }

/-- Env.Packages. -/
def Env.packages (e : Env) : List Package := e.pkgs

/-- Env.HasCurrentPackage. -/
def Env.hasCurrentPackage (e : Env) : Bool := e.currentPackage ≠ ""

/-- Env.HasCurrentService. -/
def Env.hasCurrentService (e : Env) : Bool := e.currentService ≠ ""

/-- Env.Services: error if no package is selected; otherwise read the cached
package's service list. A missing cache entry is the nil-map dereference
panic the Go comment warns about. -/
def Env.services (e : Env) : QRes (List Service) :=
  if e.currentPackage = "" then .error errPackageUnselected
  else
    match cacheLookup e.currentPackage e.cachePkg with
    | some p => .ok p.services
    | none => .panic

/-- Env.Messages: same contract as Services but for messages. -/
def Env.messages (e : Env) : QRes (List Message) :=
  if e.currentPackage = "" then .error errPackageUnselected
  else
    match cacheLookup e.currentPackage e.cachePkg with
    | some p => .ok p.messages
    | none => .panic

/-- Env.Service: linear scan of the current service list for the first
service whose name equals the argument. -/
def Env.service (e : Env) (name : String) : QRes Service :=
  match e.services with
  | .error err => .error err
  | .panic => .panic
  | .ok svcs =>
    match svcs.find? (fun svc => name == svc.name) with
    | some svc => .ok svc
    | none => .error (wrapf (name ++ " not found") errInvalidServiceName)

/-- Env.Message: linear scan of the current message list for the first
message whose name equals the argument. -/
def Env.message (e : Env) (name : String) : QRes Message :=
  match e.messages with
  | .error err => .error err
  | .panic => .panic
  | .ok msgs =>
    match msgs.find? (fun msg => name == msg.name) with
    | some msg => .ok msg
    | none => .error (wrapf (name ++ " not found") errInvalidMessageName)

/-- Env.RPCs: error if no service selected; otherwise resolve the current
service by name and return its RPC list. -/
def Env.rpcs (e : Env) : QRes (List RPC) :=
  if e.currentService = "" then .error errServiceUnselected
  else
    match e.service e.currentService with
    | .error err => .error err
    | .panic => .panic
    | .ok svc => .ok svc.rpcs

/-- Env.RPC: linear scan of the current service's RPC list for the first
RPC whose name equals the argument. -/
def Env.rpc (e : Env) (name : String) : QRes RPC :=
  match e.rpcs with
  | .error err => .error err
  | .panic => .panic
  | .ok rpcList =>
    match rpcList.find? (fun r => name == r.name) with
    | some r => .ok r
    | none => .error (wrapf (name ++ " not found") errInvalidRPCName)

/-- Env.Headers: collect a fresh copy of every stored header, then sort by
key (sort.Slice with a `<` comparator on keys, i.e. nondecreasing order). -/
def Env.headersList (e : Env) : List Header :=
  List.insertionSort (fun a b => a.key ≤ b.key)
    (e.headers.map (fun kh => ⟨kh.2.key, kh.2.val⟩))

/-- Env.UsePackage: scan the catalog for the first package with the given
name; on a hit set currentPackage and cache the package under that name;
otherwise report UnknownPackage and change nothing. -/
def Env.usePackage (e : Env) (name : String) : Except EnvErr Unit × Env :=
  match e.pkgs.find? (fun p => name == p.name) with
  | some p =>
    (.ok (), { e with currentPackage := name, cachePkg := cacheInsert name p e.cachePkg })
  | none => (.error (wrapf (name ++ " not found") errUnknownPackage), e)

/-- strings.SplitN(s, ".", 2) on the character list: split at the first
dot, or return `none` when the string holds no dot (length-1 split). -/
def splitDotAux : List Char → Option (List Char × List Char)
  | [] => none
  | c :: cs =>
    if c = '.' then some ([], cs)
    else
      match splitDotAux cs with
      | none => none
      | some (a, b) => some (c :: a, b)

/-- strings.SplitN(s, ".", 2), packaged on `String`. -/
def splitFirstDot (s : String) : Option (String × String) :=
  match splitDotAux s.data with
  | none => none
  | some (a, b) => some (⟨a⟩, ⟨b⟩)

/-- The second half of Env.UseService: fetch the current service list
(wrapping any error), then scan it for the full name and set
currentService on a hit, else report UnknownService. -/
def Env.useServiceLookup (e : Env) (name : String) : QRes Unit × Env :=
  match e.services with
  | .error err => (.error (wrapf "failed to get services" err), e)
  | .panic => (.panic, e)
  | .ok svcs =>
    match svcs.find? (fun svc => name == svc.name) with
    | some _ => (.ok (), { e with currentService := name })
    | none => (.error (wrapf (name ++ " not found") errUnknownService), e)

/-- Env.UseService: when no package is selected, split the name at the
first dot (failing with a wrapped ErrPackageUnselected when there is no
dot) and UsePackage the part before the dot, wrapping any failure with the
full name; then look the full, un-split name up in the current service
list. -/
def Env.useService (e : Env) (name : String) : QRes Unit × Env :=
  if e.currentPackage = "" then
    match splitFirstDot name with
    | none =>
      (.error (wrapf "please set package (package_name.service_name or set --package flag)"
        errPackageUnselected), e)
    | some (headPart, _) =>
      match e.usePackage headPart with
      | (.error err, e₁) => (.error (wrapf name err), e₁)
      | (.ok _, e₁) => e₁.useServiceLookup name
  else e.useServiceLookup name

/-- Env.DSN: empty when no package is selected, else the package name,
plus a dot and the service name when a service is selected. -/
def Env.dsn (e : Env) : String :=
  if e.currentPackage = "" then ""
  else if e.currentService = "" then e.currentPackage
  else e.currentPackage ++ "." ++ e.currentService

/-- NewFromServices: build a catalog with the single pseudo package
"default" holding the given services and messages, then UsePackage it;
a failure of that call is a panic in Go. -/
def Env.newFromServices (svcs : List Service) (msgs : List Message)
    (defaultHeaders : List Header) : QRes Env :=
  let env := Env.new [{ name := "default", services := svcs, messages := msgs }] defaultHeaders
  match env.pkgs with
  | [] => .panic
  | p :: _ =>
    match env.usePackage p.name with
    | (.ok _, env₁) => .ok env₁
    | (.error _, _) => .panic

/-- States reachable through the public construction and mutation surface.
Query methods take no Env out, so they cannot change state. -/
inductive Reachable : Env → Prop where
  | new (pkgs : List Package) (hs : List Header) : Reachable (Env.new pkgs hs)
  | fromServices (svcs : List Service) (msgs : List Message) (hs : List Header) (env : Env) :
      Env.newFromServices svcs msgs hs = .ok env → Reachable env
  | usePackage (e : Env) (name : String) : Reachable e → Reachable (e.usePackage name).2
  | useService (e : Env) (name : String) : Reachable e → Reachable (e.useService name).2
  | addHeader (e : Env) (h : Header) : Reachable e → Reachable (e.addHeader h)
  | removeHeader (e : Env) (k : String) : Reachable e → Reachable (e.removeHeader k)

/-! ### Helper lemmas -/

theorem strAppend_assoc (a b c : String) : a ++ b ++ c = a ++ (b ++ c) := by
  apply String.ext
  simp [String.data_append, List.append_assoc]

@[simp] theorem addHeader_pkgs (e : Env) (h : Header) : (e.addHeader h).pkgs = e.pkgs := rfl

@[simp] theorem addHeader_currentPackage (e : Env) (h : Header) :
    (e.addHeader h).currentPackage = e.currentPackage := rfl

@[simp] theorem addHeader_currentService (e : Env) (h : Header) :
    (e.addHeader h).currentService = e.currentService := rfl

@[simp] theorem addHeader_cachePkg (e : Env) (h : Header) :
    (e.addHeader h).cachePkg = e.cachePkg := rfl

@[simp] theorem removeHeader_pkgs (e : Env) (k : String) : (e.removeHeader k).pkgs = e.pkgs := rfl

@[simp] theorem removeHeader_currentPackage (e : Env) (k : String) :
    (e.removeHeader k).currentPackage = e.currentPackage := rfl

@[simp] theorem removeHeader_currentService (e : Env) (k : String) :
    (e.removeHeader k).currentService = e.currentService := rfl

@[simp] theorem removeHeader_cachePkg (e : Env) (k : String) :
    (e.removeHeader k).cachePkg = e.cachePkg := rfl

theorem new_foldl_fields (hs : List Header) (e : Env) :
    (hs.foldl (fun acc h => acc.addHeader ⟨h.key, h.val⟩) e).pkgs = e.pkgs ∧
    (hs.foldl (fun acc h => acc.addHeader ⟨h.key, h.val⟩) e).currentPackage = e.currentPackage ∧
    (hs.foldl (fun acc h => acc.addHeader ⟨h.key, h.val⟩) e).currentService = e.currentService ∧
    (hs.foldl (fun acc h => acc.addHeader ⟨h.key, h.val⟩) e).cachePkg = e.cachePkg := by
  induction hs generalizing e with
  | nil => exact ⟨rfl, rfl, rfl, rfl⟩
  | cons h t ih => simpa using ih (e.addHeader ⟨h.key, h.val⟩)

@[simp] theorem new_pkgs (pkgs : List Package) (hs : List Header) :
    (Env.new pkgs hs).pkgs = pkgs :=
  (new_foldl_fields hs _).1

@[simp] theorem new_currentPackage (pkgs : List Package) (hs : List Header) :
    (Env.new pkgs hs).currentPackage = "" :=
  (new_foldl_fields hs _).2.1

@[simp] theorem new_currentService (pkgs : List Package) (hs : List Header) :
    (Env.new pkgs hs).currentService = "" :=
  (new_foldl_fields hs _).2.2.1

@[simp] theorem new_cachePkg (pkgs : List Package) (hs : List Header) :
    (Env.new pkgs hs).cachePkg = [] :=
  (new_foldl_fields hs _).2.2.2

theorem cacheLookup_insert_self (k : String) (p : Package) (c : List (String × Package)) :
    cacheLookup k (cacheInsert k p c) = some p := by
  induction c with
  | nil => simp [cacheInsert, cacheLookup]
  | cons kp rest ih =>
    by_cases hk : kp.1 = k
    · simp [cacheInsert, cacheLookup, hk]
    · simp [cacheInsert, cacheLookup, hk, ih]

theorem storeLookup_insert_self (h : Header) (s : List (String × Header)) :
    storeLookup h.key (storeInsert h.key h s) = some h := by
  induction s with
  | nil => simp [storeInsert, storeLookup]
  | cons kh rest ih =>
    by_cases hk : kh.1 = h.key
    · simp [storeInsert, storeLookup, hk]
    · simp [storeInsert, storeLookup, hk, ih]

theorem storeLookup_insert_ne (k : String) (h : Header) (s : List (String × Header))
    (hne : k ≠ h.key) : storeLookup k (storeInsert h.key h s) = storeLookup k s := by
  have hne₂ : h.key ≠ k := Ne.symm hne
  induction s with
  | nil => simp [storeInsert, storeLookup, hne₂]
  | cons kh rest ih =>
    by_cases hk : kh.1 = h.key
    · rw [storeInsert, if_pos hk, storeLookup, if_neg hne₂, storeLookup,
        if_neg (hk ▸ hne₂ : ¬kh.1 = k)]
    · rw [storeInsert, if_neg hk]
      by_cases hk₂ : kh.1 = k
      · rw [storeLookup, if_pos hk₂, storeLookup, if_pos hk₂]
      · rw [storeLookup, if_neg hk₂, storeLookup, if_neg hk₂, ih]

theorem storeLookup_delete_self (k : String) (s : List (String × Header))
    (hnd : (s.map Prod.fst).Nodup) : storeLookup k (storeDelete k s) = none := by
  induction s with
  | nil => simp [storeDelete, storeLookup]
  | cons kh rest ih =>
    simp only [List.map_cons, List.nodup_cons] at hnd
    by_cases hk : kh.1 = k
    · rw [storeDelete, if_pos hk]
      subst hk
      clear ih
      induction rest with
      | nil => simp [storeLookup]
      | cons kh₂ rest₂ ih₂ =>
        simp only [List.map_cons, List.mem_cons, List.nodup_cons] at hnd
        have h1 : kh₂.1 ≠ kh.1 := fun hh => hnd.1 (Or.inl hh.symm)
        rw [storeLookup, if_neg h1]
        exact ih₂ ⟨fun hm => hnd.1 (Or.inr hm), hnd.2.2⟩
    · rw [storeDelete, if_neg hk, storeLookup, if_neg hk]
      exact ih hnd.2

theorem storeLookup_delete_ne (k k₀ : String) (s : List (String × Header))
    (hne : k₀ ≠ k) : storeLookup k₀ (storeDelete k s) = storeLookup k₀ s := by
  induction s with
  | nil => simp [storeDelete, storeLookup]
  | cons kh rest ih =>
    by_cases hk : kh.1 = k
    · rw [storeDelete, if_pos hk, storeLookup, if_neg (by rw [hk]; exact fun hh => hne hh.symm)]
    · rw [storeDelete, if_neg hk]
      by_cases hk₂ : kh.1 = k₀
      · rw [storeLookup, if_pos hk₂, storeLookup, if_pos hk₂]
      · rw [storeLookup, if_neg hk₂, storeLookup, if_neg hk₂, ih]

theorem storeDelete_of_absent (k : String) (s : List (String × Header))
    (habs : storeLookup k s = none) : storeDelete k s = s := by
  induction s with
  | nil => rfl
  | cons kh rest ih =>
    by_cases hk : kh.1 = k
    · rw [storeLookup, if_pos hk] at habs
      exact absurd habs (by simp)
    · rw [storeLookup, if_neg hk] at habs
      rw [storeDelete, if_neg hk, ih habs]

theorem usePackage_state (e : Env) (name : String) :
    e.usePackage name = (.error (wrapf (name ++ " not found") errUnknownPackage), e) ∨
    (∃ p, p ∈ e.pkgs ∧ name = p.name ∧
      e.usePackage name =
        (.ok (), { e with currentPackage := name, cachePkg := cacheInsert name p e.cachePkg })) := by
  rcases hf : e.pkgs.find? (fun p => name == p.name) with _ | p
  · left
    rw [Env.usePackage, hf]
  · refine Or.inr ⟨p, List.mem_of_find?_eq_some hf, ?_, ?_⟩
    · have hb := @List.find?_some _ (fun q => name == q.name) p e.pkgs hf
      exact eq_of_beq hb
    · rw [Env.usePackage, hf]

theorem usePackage_pkgs (e : Env) (name : String) : (e.usePackage name).2.pkgs = e.pkgs := by
  rcases usePackage_state e name with h | ⟨p, _, _, h⟩ <;> rw [h]

theorem services_ok (e : Env) (svcs : List Service) (h : e.services = .ok svcs) :
    e.currentPackage ≠ "" ∧
    ∃ p, cacheLookup e.currentPackage e.cachePkg = some p ∧ svcs = p.services := by
  by_cases hcp : e.currentPackage = ""
  · rw [Env.services, if_pos hcp] at h
    exact absurd h (by simp)
  · refine ⟨hcp, ?_⟩
    rcases hc : cacheLookup e.currentPackage e.cachePkg with _ | p
    · rw [Env.services, if_neg hcp, hc] at h
      exact absurd h (by simp)
    · rw [Env.services, if_neg hcp, hc] at h
      injection h with h
      exact ⟨p, rfl, h.symm⟩

theorem services_of_cache (e : Env) (p : Package) (hp : e.currentPackage ≠ "")
    (hc : cacheLookup e.currentPackage e.cachePkg = some p) :
    e.services = .ok p.services := by
  rw [Env.services, if_neg hp, hc]

theorem messages_of_cache (e : Env) (p : Package) (hp : e.currentPackage ≠ "")
    (hc : cacheLookup e.currentPackage e.cachePkg = some p) :
    e.messages = .ok p.messages := by
  rw [Env.messages, if_neg hp, hc]

theorem useServiceLookup_state (e : Env) (n : String) :
    (e.useServiceLookup n).2 = e ∨
    (e.currentPackage ≠ "" ∧ (e.useServiceLookup n).2 = { e with currentService := n }) := by
  cases hs : e.services with
  | ok svcs =>
    cases hf : svcs.find? (fun svc => n == svc.name) with
    | some svc =>
      right
      refine ⟨(services_ok e svcs hs).1, ?_⟩
      simp [Env.useServiceLookup, hs, hf]
    | none =>
      left
      simp [Env.useServiceLookup, hs, hf]
  | error err =>
    left
    simp [Env.useServiceLookup, hs]
  | panic =>
    left
    simp [Env.useServiceLookup, hs]

theorem useService_state (e : Env) (n : String) :
    (e.useService n).2 = e ∨
    (e.currentPackage ≠ "" ∧ (e.useService n).2 = { e with currentService := n }) ∨
    (∃ p, p ∈ e.pkgs ∧
      ((e.useService n).2 =
          { e with currentPackage := p.name, cachePkg := cacheInsert p.name p e.cachePkg } ∨
        (e.useService n).2 =
          { e with
            currentPackage := p.name
            cachePkg := cacheInsert p.name p e.cachePkg
            currentService := n })) := by
  by_cases hcp : e.currentPackage = ""
  · rcases hsp : splitFirstDot n with _ | ⟨pfx, rest⟩
    · left
      simp [Env.useService, hcp, hsp]
    · rcases usePackage_state e pfx with h | ⟨p, hmem, hname, h⟩
      · left
        simp [Env.useService, hcp, hsp, h]
      · subst hname
        rcases useServiceLookup_state
            { e with currentPackage := p.name, cachePkg := cacheInsert p.name p e.cachePkg } n
          with h₂ | ⟨_, h₂⟩
        · refine Or.inr (Or.inr ⟨p, hmem, Or.inl ?_⟩)
          simp only [Env.useService, hcp, hsp, h]
          exact h₂
        · refine Or.inr (Or.inr ⟨p, hmem, Or.inr ?_⟩)
          simp only [Env.useService, hcp, hsp, h]
          exact h₂
  · rcases useServiceLookup_state e n with h | ⟨_, h⟩
    · left
      simp only [Env.useService, hcp, if_false]
      exact h
    · right; left
      refine ⟨hcp, ?_⟩
      simp only [Env.useService, hcp, if_false]
      exact h

theorem useService_pkgs (e : Env) (n : String) : (e.useService n).2.pkgs = e.pkgs := by
  rcases useService_state e n with h | ⟨_, h⟩ | ⟨p, _, h | h⟩ <;> rw [h]

theorem splitDotAux_of_not_mem (l : List Char) (h : '.' ∉ l) : splitDotAux l = none := by
  induction l with
  | nil => rfl
  | cons c cs ih =>
    simp only [List.mem_cons, not_or] at h
    rw [splitDotAux, if_neg (fun hc => h.1 hc.symm), ih h.2]

theorem splitDotAux_append (l₁ l₂ : List Char) (h : '.' ∉ l₁) :
    splitDotAux (l₁ ++ '.' :: l₂) = some (l₁, l₂) := by
  induction l₁ with
  | nil => simp [splitDotAux]
  | cons c cs ih =>
    simp only [List.mem_cons, not_or] at h
    rw [List.cons_append, splitDotAux, if_neg (fun hc => h.1 hc.symm), ih h.2]

theorem splitFirstDot_none (s : String) (h : '.' ∉ s.data) : splitFirstDot s = none := by
  rw [splitFirstDot, splitDotAux_of_not_mem s.data h]

theorem splitFirstDot_append (pfx rest : String) (h : '.' ∉ pfx.data) :
    splitFirstDot (pfx ++ "." ++ rest) = some (pfx, rest) := by
  have hd : (pfx ++ "." ++ rest).data = pfx.data ++ '.' :: rest.data := by
    simp [String.data_append]
  rw [splitFirstDot, hd, splitDotAux_append _ _ h]

theorem newFromServices_fields (svcs : List Service) (msgs : List Message) (hs : List Header)
    (env : Env) (heq : Env.newFromServices svcs msgs hs = .ok env) :
    env.pkgs = [⟨"default", svcs, msgs⟩] ∧ env.currentPackage = "default" ∧
    env.currentService = "" ∧
    cacheLookup "default" env.cachePkg = some ⟨"default", svcs, msgs⟩ := by
  simp only [Env.newFromServices, new_pkgs] at heq
  rcases usePackage_state
      (Env.new [{ name := "default", services := svcs, messages := msgs }] hs) "default"
    with h | ⟨p, hmem, hname, h⟩
  · simp only [h] at heq
    exact absurd heq (by simp)
  · rw [new_pkgs, List.mem_singleton] at hmem
    subst hmem
    simp only [h] at heq
    injection heq with heq
    subst heq
    refine ⟨by rw [new_pkgs], rfl, by rw [new_currentService], ?_⟩
    exact cacheLookup_insert_self _ _ _

theorem wrapf_msg_shape (name : String) (err : EnvErr) :
    wrapf (name ++ " not found") err =
      ⟨err.kind, name ++ (" not found" ++ (": " ++ err.msg))⟩ := by
  rw [wrapf]
  congr 1
  rw [strAppend_assoc, strAppend_assoc]

instance : IsTotal Header (fun a b => a.key ≤ b.key) :=
  ⟨fun a b => le_total a.key b.key⟩

instance : IsTrans Header (fun a b => a.key ≤ b.key) :=
  ⟨fun _ _ _ hab hbc => le_trans hab hbc⟩

/-! ### Claim theorems -/

/-- C3: for every name that matches no package in the catalog, UsePackage
fails with an error whose cause is ErrUnknownPackage and whose message
includes the searched name, and it returns the environment completely
unchanged (selection state and cache included). -/
theorem C3_usePackage_unknown_atomic (e : Env) (name : String)
    (h : ∀ p ∈ e.pkgs, p.name ≠ name) :
    e.usePackage name = (.error (wrapf (name ++ " not found") errUnknownPackage), e) ∧
    (wrapf (name ++ " not found") errUnknownPackage).kind = .unknownPackage ∧
    ∃ t, (wrapf (name ++ " not found") errUnknownPackage).msg = name ++ t := by
  rcases usePackage_state e name with hst | ⟨p, hmem, hname, _⟩
  · refine ⟨hst, rfl, " not found" ++ (": " ++ "unknown package"), ?_⟩
    have hsh := wrapf_msg_shape name errUnknownPackage
    rw [hsh]
    rfl
  · exact absurd hname.symm (h p hmem)

/-- Witness for C3: looking up a missing package name in a one-package
catalog. -/
theorem C3_usePackage_unknown_atomic_witness :
    (∀ p ∈ (Env.new [⟨"greet", [], []⟩] []).pkgs, p.name ≠ "missing") ∧
    ((Env.new [⟨"greet", [], []⟩] []).usePackage "missing" =
        (.error (wrapf ("missing" ++ " not found") errUnknownPackage),
          Env.new [⟨"greet", [], []⟩] []) ∧
      (wrapf ("missing" ++ " not found") errUnknownPackage).kind = .unknownPackage ∧
      ∃ t, (wrapf ("missing" ++ " not found") errUnknownPackage).msg = "missing" ++ t) :=
  ⟨by decide, C3_usePackage_unknown_atomic (Env.new [⟨"greet", [], []⟩] []) "missing" (by decide)⟩

/-- C4: a successful UsePackage sets currentPackage and the cache entry for
the name, leaves the catalog and headers alone, and never touches
currentService: any previously selected service name survives a package
switch even if it does not exist in the new package. -/
theorem C4_usePackage_keeps_currentService (e : Env) (name : String)
    (h : (e.usePackage name).1 = .ok ()) :
    (e.usePackage name).2.currentService = e.currentService ∧
    (e.usePackage name).2.currentPackage = name ∧
    (∃ p, p ∈ e.pkgs ∧ p.name = name ∧
      cacheLookup name (e.usePackage name).2.cachePkg = some p) ∧
    (e.usePackage name).2.pkgs = e.pkgs ∧
    (e.usePackage name).2.headers = e.headers := by
  rcases usePackage_state e name with hst | ⟨p, hmem, hname, hst⟩
  · rw [hst] at h
    exact absurd h (by simp)
  · rw [hst]
    exact ⟨rfl, rfl, ⟨p, hmem, hname.symm, cacheLookup_insert_self _ _ _⟩, rfl, rfl⟩

/-- Witness for C4: with package "a" and service "s" selected, selecting
package "b" (which has no service "s") keeps currentService = "s". -/
theorem C4_usePackage_keeps_currentService_witness :
    ((⟨[⟨"a", [⟨"s", []⟩], []⟩, ⟨"b", [], []⟩], "a", "s", [],
        [("a", ⟨"a", [⟨"s", []⟩], []⟩)]⟩ : Env).usePackage "b").1 = .ok () ∧
    ((⟨[⟨"a", [⟨"s", []⟩], []⟩, ⟨"b", [], []⟩], "a", "s", [],
        [("a", ⟨"a", [⟨"s", []⟩], []⟩)]⟩ : Env).usePackage "b").2.currentService = "s" :=
  ⟨by decide,
    ((C4_usePackage_keeps_currentService
      (⟨[⟨"a", [⟨"s", []⟩], []⟩, ⟨"b", [], []⟩], "a", "s", [],
        [("a", ⟨"a", [⟨"s", []⟩], []⟩)]⟩ : Env) "b" (by decide)).1).trans (by decide)⟩

/-- C6: NewFromServices always succeeds (no panic, no typed error): it
builds the single pseudo package "default" holding exactly the given
services and messages, and the automatic UsePackage leaves "default"
selected with no service selected. -/
theorem C6_newFromServices_default (svcs : List Service) (msgs : List Message)
    (hs : List Header) :
    ∃ env, Env.newFromServices svcs msgs hs = .ok env ∧
      env.pkgs = [⟨"default", svcs, msgs⟩] ∧
      env.currentPackage = "default" ∧
      env.currentService = "" := by
  have hf : (Env.new [({ name := "default", services := svcs, messages := msgs } : Package)]
      hs).pkgs.find? (fun q => "default" == q.name) =
      some { name := "default", services := svcs, messages := msgs } := by
    rw [new_pkgs]
    rfl
  have hup : (Env.new [({ name := "default", services := svcs, messages := msgs } : Package)]
      hs).usePackage "default" =
      (.ok (), { Env.new [({ name := "default", services := svcs, messages := msgs } : Package)] hs
        with
        currentPackage := "default"
        cachePkg := cacheInsert "default" { name := "default", services := svcs, messages := msgs }
          (Env.new [({ name := "default", services := svcs, messages := msgs } : Package)]
            hs).cachePkg }) := by
    rw [Env.usePackage, hf]
  refine ⟨{ Env.new [({ name := "default", services := svcs, messages := msgs } : Package)] hs
      with
      currentPackage := "default"
      cachePkg := cacheInsert "default" { name := "default", services := svcs, messages := msgs }
        (Env.new [({ name := "default", services := svcs, messages := msgs } : Package)]
          hs).cachePkg },
    ?_, by rw [new_pkgs], rfl, by rw [new_currentService]⟩
  simp only [Env.newFromServices, new_pkgs, hup]

/-- C7: Headers returns the stored headers rebuilt as fresh key/value
copies, sorted ascending by key. In the pure embedding the defensive-copy
clause is captured by the result being a pure function of the store that
reconstructs every entry. -/
theorem C7_headers_sorted_copies (e : Env) :
    List.Sorted (fun a b : Header => a.key ≤ b.key) e.headersList ∧
    List.Perm e.headersList (e.headers.map (fun kh => ⟨kh.2.key, kh.2.val⟩)) :=
  ⟨List.sorted_insertionSort _ _, List.perm_insertionSort _ _⟩

/-- C8: AddHeader upserts (overwriting an existing binding) and touches no
other key; RemoveHeader deletes a present key, leaves other keys alone,
and is a complete no-op on an absent key. Neither operation has an error
result. The nodup hypothesis states the Go map invariant of at most one
binding per key. -/
theorem C8_header_upsert_delete (e : Env) (h : Header) (k k₀ : String)
    (hnd : (e.headers.map Prod.fst).Nodup) :
    storeLookup h.key (e.addHeader h).headers = some h ∧
    (k₀ ≠ h.key → storeLookup k₀ (e.addHeader h).headers = storeLookup k₀ e.headers) ∧
    storeLookup k (e.removeHeader k).headers = none ∧
    (k₀ ≠ k → storeLookup k₀ (e.removeHeader k).headers = storeLookup k₀ e.headers) ∧
    (storeLookup k e.headers = none → e.removeHeader k = e) := by
  refine ⟨storeLookup_insert_self h e.headers,
    fun hne => storeLookup_insert_ne _ _ _ hne,
    storeLookup_delete_self k e.headers hnd,
    fun hne => storeLookup_delete_ne _ _ _ hne,
    fun habs => ?_⟩
  have hd := storeDelete_of_absent k e.headers habs
  show { e with headers := storeDelete k e.headers } = e
  rw [hd]

/-- Witness for C8 at a concrete header store. -/
theorem C8_header_upsert_delete_witness :
    storeLookup "b" ((Env.new [] [⟨"a", "1"⟩, ⟨"b", "2"⟩]).addHeader ⟨"b", "9"⟩).headers =
      some ⟨"b", "9"⟩ ∧
    storeLookup "zz" ((Env.new [] [⟨"a", "1"⟩, ⟨"b", "2"⟩]).addHeader ⟨"b", "9"⟩).headers =
      storeLookup "zz" (Env.new [] [⟨"a", "1"⟩, ⟨"b", "2"⟩]).headers ∧
    storeLookup "a" ((Env.new [] [⟨"a", "1"⟩, ⟨"b", "2"⟩]).removeHeader "a").headers = none ∧
    storeLookup "zz" ((Env.new [] [⟨"a", "1"⟩, ⟨"b", "2"⟩]).removeHeader "a").headers =
      storeLookup "zz" (Env.new [] [⟨"a", "1"⟩, ⟨"b", "2"⟩]).headers ∧
    (Env.new [] [⟨"a", "1"⟩, ⟨"b", "2"⟩]).removeHeader "never" =
      Env.new [] [⟨"a", "1"⟩, ⟨"b", "2"⟩] := by
  have hm := C8_header_upsert_delete (Env.new [] [⟨"a", "1"⟩, ⟨"b", "2"⟩])
    ⟨"b", "9"⟩ "a" "zz" (by decide)
  have hm₂ := C8_header_upsert_delete (Env.new [] [⟨"a", "1"⟩, ⟨"b", "2"⟩])
    ⟨"b", "9"⟩ "never" "zz" (by decide)
  exact ⟨hm.1, hm.2.1 (by decide), hm.2.2.1, hm.2.2.2.1 (by decide),
    hm₂.2.2.2.2 (by decide)⟩

/-- C5: with a package selected and cached, Service/Message/RPC scan the
cached package's service list, its message list, and the resolved current
service's RPC list respectively, returning the first exact name match in
list order (duplicates included), and otherwise fail with the matching
Invalid...Name error whose message starts with the searched name. -/
theorem C5_find_first_match (e : Env) (pkg : Package) (name : String)
    (hp : e.currentPackage ≠ "")
    (hc : cacheLookup e.currentPackage e.cachePkg = some pkg) :
    (e.service name =
      match pkg.services.find? (fun s => name == s.name) with
      | some s => .ok s
      | none => .error (wrapf (name ++ " not found") errInvalidServiceName)) ∧
    (pkg.services.find? (fun s => name == s.name) = none →
      e.service name =
        .error ⟨.invalidServiceName, name ++ (" not found" ++ (": " ++ "invalid service name"))⟩) ∧
    (e.message name =
      match pkg.messages.find? (fun m => name == m.name) with
      | some m => .ok m
      | none => .error (wrapf (name ++ " not found") errInvalidMessageName)) ∧
    (pkg.messages.find? (fun m => name == m.name) = none →
      e.message name =
        .error ⟨.invalidMessageName, name ++ (" not found" ++ (": " ++ "invalid message name"))⟩) ∧
    (∀ svc, e.currentService ≠ "" →
      pkg.services.find? (fun s => e.currentService == s.name) = some svc →
      (e.rpc name =
        match svc.rpcs.find? (fun r => name == r.name) with
        | some r => .ok r
        | none => .error (wrapf (name ++ " not found") errInvalidRPCName)) ∧
      (svc.rpcs.find? (fun r => name == r.name) = none →
        e.rpc name =
          .error ⟨.invalidRPCName, name ++ (" not found" ++ (": " ++ "invalid RPC name"))⟩)) := by
  have hsv : e.services = .ok pkg.services := services_of_cache e pkg hp hc
  have hms : e.messages = .ok pkg.messages := messages_of_cache e pkg hp hc
  refine ⟨?_, ?_, ?_, ?_, ?_⟩
  · simp only [Env.service, hsv]
  · intro hnone
    simp only [Env.service, hsv, hnone]
    rw [wrapf_msg_shape]
    rfl
  · simp only [Env.message, hms]
  · intro hnone
    simp only [Env.message, hms, hnone]
    rw [wrapf_msg_shape]
    rfl
  · intro svc hcs hfind
    have hserv : e.service e.currentService = .ok svc := by
      simp only [Env.service, hsv, hfind]
    have hrpcs : e.rpcs = .ok svc.rpcs := by
      rw [Env.rpcs, if_neg hcs, hserv]
    refine ⟨?_, ?_⟩
    · simp only [Env.rpc, hrpcs]
    · intro hnone
      simp only [Env.rpc, hrpcs, hnone]
      rw [wrapf_msg_shape]
      rfl

/-- Witness for C5: duplicate service names in one package; lookup returns
the first in list order, and a failed lookup reports the searched name. -/
theorem C5_find_first_match_witness :
    (⟨[⟨"p", [⟨"dup", [⟨"r1"⟩]⟩, ⟨"dup", [⟨"r2"⟩]⟩], [⟨"m"⟩]⟩], "p", "dup", [],
        [("p", ⟨"p", [⟨"dup", [⟨"r1"⟩]⟩, ⟨"dup", [⟨"r2"⟩]⟩], [⟨"m"⟩]⟩)]⟩ : Env).service "dup" =
      .ok ⟨"dup", [⟨"r1"⟩]⟩ ∧
    (⟨[⟨"p", [⟨"dup", [⟨"r1"⟩]⟩, ⟨"dup", [⟨"r2"⟩]⟩], [⟨"m"⟩]⟩], "p", "dup", [],
        [("p", ⟨"p", [⟨"dup", [⟨"r1"⟩]⟩, ⟨"dup", [⟨"r2"⟩]⟩], [⟨"m"⟩]⟩)]⟩ : Env).message "nope" =
      .error ⟨.invalidMessageName, "nope" ++ (" not found" ++ (": " ++ "invalid message name"))⟩ ∧
    (⟨[⟨"p", [⟨"dup", [⟨"r1"⟩]⟩, ⟨"dup", [⟨"r2"⟩]⟩], [⟨"m"⟩]⟩], "p", "dup", [],
        [("p", ⟨"p", [⟨"dup", [⟨"r1"⟩]⟩, ⟨"dup", [⟨"r2"⟩]⟩], [⟨"m"⟩]⟩)]⟩ : Env).rpc "r1" =
      .ok ⟨"r1"⟩ := by
  have hm := C5_find_first_match
    (⟨[⟨"p", [⟨"dup", [⟨"r1"⟩]⟩, ⟨"dup", [⟨"r2"⟩]⟩], [⟨"m"⟩]⟩], "p", "dup", [],
        [("p", ⟨"p", [⟨"dup", [⟨"r1"⟩]⟩, ⟨"dup", [⟨"r2"⟩]⟩], [⟨"m"⟩]⟩)]⟩ : Env)
    ⟨"p", [⟨"dup", [⟨"r1"⟩]⟩, ⟨"dup", [⟨"r2"⟩]⟩], [⟨"m"⟩]⟩ "dup" (by decide) (by decide)
  have hm₂ := C5_find_first_match
    (⟨[⟨"p", [⟨"dup", [⟨"r1"⟩]⟩, ⟨"dup", [⟨"r2"⟩]⟩], [⟨"m"⟩]⟩], "p", "dup", [],
        [("p", ⟨"p", [⟨"dup", [⟨"r1"⟩]⟩, ⟨"dup", [⟨"r2"⟩]⟩], [⟨"m"⟩]⟩)]⟩ : Env)
    ⟨"p", [⟨"dup", [⟨"r1"⟩]⟩, ⟨"dup", [⟨"r2"⟩]⟩], [⟨"m"⟩]⟩ "nope" (by decide) (by decide)
  have hm₃ := C5_find_first_match
    (⟨[⟨"p", [⟨"dup", [⟨"r1"⟩]⟩, ⟨"dup", [⟨"r2"⟩]⟩], [⟨"m"⟩]⟩], "p", "dup", [],
        [("p", ⟨"p", [⟨"dup", [⟨"r1"⟩]⟩, ⟨"dup", [⟨"r2"⟩]⟩], [⟨"m"⟩]⟩)]⟩ : Env)
    ⟨"p", [⟨"dup", [⟨"r1"⟩]⟩, ⟨"dup", [⟨"r2"⟩]⟩], [⟨"m"⟩]⟩ "r1" (by decide) (by decide)
  refine ⟨hm.1.trans (by decide), hm₂.2.2.2.1 (by decide), ?_⟩
  exact ((hm₃.2.2.2.2 ⟨"dup", [⟨"r1"⟩]⟩ (by decide) (by decide)).1).trans (by decide)

/-- C2 counterexample: the claim fails when the part before the first dot
is empty. Catalog: one package named "" owning a service named ".s".
UsePackage("") succeeds and a service named exactly ".s" exists in that
package, so the claim demands that UseService(".s") succeed; the code
instead fails with a wrapped ErrPackageUnselected, because the selected
empty package name still counts as "no package selected". -/
theorem C2_counterexample :
    splitFirstDot ".s" = some ("", "s") ∧
    ((Env.new [⟨"", [⟨".s", []⟩], []⟩] []).usePackage "").1 = .ok () ∧
    (∃ s ∈ (Package.mk "" [⟨".s", []⟩] []).services, s.name = ".s") ∧
    ((Env.new [⟨"", [⟨".s", []⟩], []⟩] []).useService ".s").1 =
      .error ⟨.packageUnselected, "failed to get services: package unselected"⟩ ∧
    ((Env.new [⟨"", [⟨".s", []⟩], []⟩] []).useService ".s").2.currentService = "" := by
  decide

/-- C2 amended: from a state with no package selected, UseService on a
name without a dot fails with the wrapped ErrPackageUnselected and changes
nothing; on a name of the form prefixPart.rest it first runs UsePackage on
prefixPart, propagating its failure (wrapped with the full name) with the
state unchanged; and -- provided prefixPart is non-empty, the amendment --
after a successful package selection it resolves the original un-split
name exactly against the selected package's service names (the suffix
alone never matches), setting currentService to the full name on success
and failing with ErrUnknownService otherwise. -/
theorem C2_useService_no_package (e : Env) (name : String)
    (h0 : e.currentPackage = "") :
    (('.' ∉ name.data) →
      e.useService name =
        (.error (wrapf "please set package (package_name.service_name or set --package flag)"
            errPackageUnselected), e)) ∧
    (∀ pfx rest, name = pfx ++ "." ++ rest → '.' ∉ pfx.data →
      ((∀ p ∈ e.pkgs, p.name ≠ pfx) →
        e.useService name =
          (.error (wrapf name (wrapf (pfx ++ " not found") errUnknownPackage)), e)) ∧
      (∀ p, p ∈ e.pkgs → e.pkgs.find? (fun q => pfx == q.name) = some p → pfx ≠ "" →
        ((∃ s ∈ p.services, s.name = name) →
          (e.useService name).1 = .ok () ∧
          (e.useService name).2.currentPackage = pfx ∧
          (e.useService name).2.currentService = name) ∧
        ((∀ s ∈ p.services, s.name ≠ name) →
          (e.useService name).1 = .error (wrapf (name ++ " not found") errUnknownService) ∧
          (e.useService name).2 =
            { e with currentPackage := pfx, cachePkg := cacheInsert pfx p e.cachePkg }))) := by
  constructor
  · intro hnd
    simp [Env.useService, h0, splitFirstDot_none name hnd]
  · intro pfx rest hname hdot
    subst hname
    have hsp := splitFirstDot_append pfx rest hdot
    constructor
    · intro hnone
      have hf : e.pkgs.find? (fun q => pfx == q.name) = none := by
        rw [List.find?_eq_none]
        intro q hq
        simp [beq_eq_false_iff_ne, (hnone q hq).symm]
      have hup : e.usePackage pfx =
          (.error (wrapf (pfx ++ " not found") errUnknownPackage), e) := by
        rw [Env.usePackage, hf]
      simp [Env.useService, h0, hsp, hup]
    · intro p hmem hfind hpfx
      have hup : e.usePackage pfx =
          (.ok (), { e with currentPackage := pfx, cachePkg := cacheInsert pfx p e.cachePkg }) := by
        rw [Env.usePackage, hfind]
      have hsvcs : ({ e with
          currentPackage := pfx
          cachePkg := cacheInsert pfx p e.cachePkg } : Env).services = .ok p.services :=
        services_of_cache _ p hpfx (cacheLookup_insert_self _ _ _)
      constructor
      · rintro ⟨s, hsmem, hsname⟩
        have hfs : (p.services.find? (fun sv => pfx ++ "." ++ rest == sv.name)).isSome := by
          rw [List.find?_isSome]
          exact ⟨s, hsmem, by rw [hsname]; exact beq_self_eq_true _⟩
        rcases Option.isSome_iff_exists.mp hfs with ⟨s₀, hs₀⟩
        refine ⟨?_, ?_, ?_⟩ <;>
          simp [Env.useService, h0, hsp, hup, Env.useServiceLookup, hsvcs, hs₀]
      · intro hall
        have hfs : p.services.find? (fun sv => pfx ++ "." ++ rest == sv.name) = none := by
          rw [List.find?_eq_none]
          intro sv hsv
          simp [beq_eq_false_iff_ne, (hall sv hsv).symm]
        refine ⟨?_, ?_⟩ <;>
          simp [Env.useService, h0, hsp, hup, Env.useServiceLookup, hsvcs, hfs]

/-- Witness for C2 at the concrete catalog from the spec scenario: package
"pkg" owning a service literally named "pkg.svc". -/
theorem C2_useService_no_package_witness :
    ((Env.new [⟨"pkg", [⟨"pkg.svc", []⟩], []⟩] []).useService "pkg.svc").1 = .ok () ∧
    ((Env.new [⟨"pkg", [⟨"pkg.svc", []⟩], []⟩] []).useService "pkg.svc").2.currentPackage =
      "pkg" ∧
    ((Env.new [⟨"pkg", [⟨"pkg.svc", []⟩], []⟩] []).useService "pkg.svc").2.currentService =
      "pkg.svc" ∧
    (Env.new [⟨"pkg", [⟨"pkg.svc", []⟩], []⟩] []).useService "nodot" =
      (.error (wrapf "please set package (package_name.service_name or set --package flag)"
          errPackageUnselected), Env.new [⟨"pkg", [⟨"pkg.svc", []⟩], []⟩] []) := by
  have h := C2_useService_no_package (Env.new [⟨"pkg", [⟨"pkg.svc", []⟩], []⟩] [])
    "pkg.svc" (by decide)
  have h₂ := C2_useService_no_package (Env.new [⟨"pkg", [⟨"pkg.svc", []⟩], []⟩] [])
    "nodot" (by decide)
  have hsucc := ((h.2 "pkg" "svc" (by decide) (by decide)).2
    ⟨"pkg", [⟨"pkg.svc", []⟩], []⟩ (by decide) (by decide) (by decide)).1 (by decide)
  exact ⟨hsucc.1, hsucc.2.1, hsucc.2.2, h₂.1 (by decide)⟩

/-- C1 counterexample: catalog with package "p" owning a service named
exactly "p.s". From a fresh environment, the dotted UseService("p.s")
succeeds, but DSN() returns "p.p.s" -- currentService stores the full
dotted name and DSN prepends the package name again -- not "p.s" as the
claim states. -/
theorem C1_counterexample :
    ((Env.new [⟨"p", [⟨"p.s", []⟩], []⟩] []).useService "p.s").1 = .ok () ∧
    ((Env.new [⟨"p", [⟨"p.s", []⟩], []⟩] []).useService "p.s").2.dsn = "p.p.s" ∧
    ((Env.new [⟨"p", [⟨"p.s", []⟩], []⟩] []).useService "p.s").2.dsn ≠ "p.s" := by
  decide

theorem useServiceLookup_ok (e : Env) (n : String)
    (hok : (e.useServiceLookup n).1 = .ok ()) :
    (e.useServiceLookup n).2 = { e with currentService := n } := by
  cases hs : e.services with
  | ok svcs =>
    cases hf : svcs.find? (fun svc => n == svc.name) with
    | some svc => simp [Env.useServiceLookup, hs, hf]
    | none => simp [Env.useServiceLookup, hs, hf] at hok
  | error err => simp [Env.useServiceLookup, hs] at hok
  | panic => simp [Env.useServiceLookup, hs] at hok

theorem useService_ok_state (e : Env) (n : String) (hcp : e.currentPackage ≠ "")
    (hok : (e.useService n).1 = .ok ()) :
    (e.useService n).2 = { e with currentService := n } := by
  have hred : e.useService n = e.useServiceLookup n := by
    rw [Env.useService, if_neg hcp]
  rw [hred] at hok ⊢
  exact useServiceLookup_ok e n hok

theorem useService_split_ok (e : Env) (name pfx rest : String) (p : Package)
    (hcp : e.currentPackage = "")
    (hsp : splitFirstDot name = some (pfx, rest))
    (hup : e.usePackage pfx =
      (.ok (), { e with currentPackage := pfx, cachePkg := cacheInsert pfx p e.cachePkg })) :
    e.useService name =
      ({ e with
        currentPackage := pfx
        cachePkg := cacheInsert pfx p e.cachePkg } : Env).useServiceLookup name := by
  simp [Env.useService, hcp, hsp, hup]

/-- C1 amended: on a fresh environment over any catalog, after
UsePackage("p") succeeds DSN() returns "p"; after a subsequent successful
UseService("s") DSN() returns "p.s"; but after a successful dotted
UseService("p.s") from the fresh (no package selected) state, DSN()
returns "p.p.s" -- the package prefix is repeated because currentService
holds the full dotted name. -/
theorem C1_address_after_selection (pkgs : List Package) (hs : List Header) :
    (((Env.new pkgs hs).usePackage "p").1 = .ok () →
      ((Env.new pkgs hs).usePackage "p").2.dsn = "p" ∧
      ((((Env.new pkgs hs).usePackage "p").2.useService "s").1 = .ok () →
        (((Env.new pkgs hs).usePackage "p").2.useService "s").2.dsn = "p.s")) ∧
    (((Env.new pkgs hs).useService "p.s").1 = .ok () →
      ((Env.new pkgs hs).useService "p.s").2.dsn = "p.p.s") := by
  have hcs : (Env.new pkgs hs).currentService = "" := new_currentService pkgs hs
  have hcp : (Env.new pkgs hs).currentPackage = "" := new_currentPackage pkgs hs
  constructor
  · intro h1
    rcases usePackage_state (Env.new pkgs hs) "p" with h | ⟨p, hmem, hname, h⟩
    · rw [h] at h1
      exact absurd h1 (by simp)
    · constructor
      · rw [h]
        simp [Env.dsn, hcs]
      · intro h2
        rw [h] at h2 ⊢
        rw [useService_ok_state _ "s" (by simp) h2]
        simp [Env.dsn, hcs]
  · intro h3
    have hsp : splitFirstDot "p.s" = some ("p", "s") := by decide
    rcases usePackage_state (Env.new pkgs hs) "p" with h | ⟨p, hmem, hname, h⟩
    · simp [Env.useService, hcp, hsp, h] at h3
    · have hred := useService_split_ok (Env.new pkgs hs) "p.s" "p" "s" p hcp hsp h
      rw [hred] at h3 ⊢
      rw [useServiceLookup_ok _ _ h3]
      simp [Env.dsn, hcs]

/-- Witness for C1 at a catalog where package "p" owns services "s" and
"p.s". -/
theorem C1_address_after_selection_witness :
    ((Env.new [⟨"p", [⟨"s", []⟩, ⟨"p.s", []⟩], []⟩] []).usePackage "p").2.dsn = "p" ∧
    (((Env.new [⟨"p", [⟨"s", []⟩, ⟨"p.s", []⟩], []⟩] []).usePackage
        "p").2.useService "s").2.dsn = "p.s" ∧
    ((Env.new [⟨"p", [⟨"s", []⟩, ⟨"p.s", []⟩], []⟩] []).useService "p.s").2.dsn = "p.p.s" := by
  have h := C1_address_after_selection [⟨"p", [⟨"s", []⟩, ⟨"p.s", []⟩], []⟩] []
  exact ⟨(h.1 (by decide)).1, (h.1 (by decide)).2 (by decide), h.2 (by decide)⟩

/-- C9 counterexample: with a catalog containing a package whose name is
the empty string, the reachable sequence UsePackage("p"), UseService("s"),
UsePackage("") ends in a state with currentService = "s" but
currentPackage = "" (no package selected), violating the invariant. -/
theorem C9_counterexample :
    Reachable ((((Env.new [⟨"", [], []⟩, ⟨"p", [⟨"s", []⟩], []⟩]
        []).usePackage "p").2.useService "s").2.usePackage "").2 ∧
    ((((Env.new [⟨"", [], []⟩, ⟨"p", [⟨"s", []⟩], []⟩]
        []).usePackage "p").2.useService "s").2.usePackage "").2.currentService = "s" ∧
    ((((Env.new [⟨"", [], []⟩, ⟨"p", [⟨"s", []⟩], []⟩]
        []).usePackage "p").2.useService "s").2.usePackage "").2.currentPackage = "" := by
  refine ⟨?_, by decide, by decide⟩
  exact Reachable.usePackage _ "" (Reachable.useService _ "s"
    (Reachable.usePackage _ "p" (Reachable.new _ _)))

/-- C9 amended: in every reachable state whose catalog contains no package
with an empty name (the amendment -- an empty-named package can be
selected yet leaves currentPackage looking unselected), a non-empty
currentService implies a non-empty currentPackage. -/
theorem C9_selection_order_invariant (e : Env) (hr : Reachable e)
    (hne : ∀ p ∈ e.pkgs, p.name ≠ "") :
    e.currentService ≠ "" → e.currentPackage ≠ "" := by
  revert hne
  induction hr with
  | new pkgs hs =>
    intro hne hsv
    exact absurd (new_currentService pkgs hs) hsv
  | fromServices svcs msgs hs env heq =>
    intro hne hsv
    rw [(newFromServices_fields svcs msgs hs env heq).2.1]
    decide
  | usePackage e n hr ih =>
    intro hne
    rw [usePackage_pkgs] at hne
    rcases usePackage_state e n with h | ⟨p, hmem, hname, h⟩
    · rw [h]
      exact ih hne
    · rw [h]
      intro _
      show n ≠ ""
      rw [hname]
      exact hne p hmem
  | useService e n hr ih =>
    intro hne
    rw [useService_pkgs] at hne
    rcases useService_state e n with h | ⟨hcp, h⟩ | ⟨p, hmem, h | h⟩
    · rw [h]
      exact ih hne
    · rw [h]
      intro _
      exact hcp
    · rw [h]
      intro _
      show p.name ≠ ""
      exact hne p hmem
    · rw [h]
      intro _
      show p.name ≠ ""
      exact hne p hmem
  | addHeader e h hr ih =>
    intro hne
    exact ih (by simpa using hne)
  | removeHeader e k hr ih =>
    intro hne
    exact ih (by simpa using hne)

/-- Witness for C9 at a reachable state with a service selected. -/
theorem C9_selection_order_invariant_witness :
    (((Env.new [⟨"p", [⟨"s", []⟩], []⟩] []).usePackage
        "p").2.useService "s").2.currentPackage ≠ "" :=
  C9_selection_order_invariant _
    (Reachable.useService _ "s" (Reachable.usePackage _ "p" (Reachable.new _ _)))
    (by decide) (by decide)

/-- C10: in every reachable state, a non-empty currentPackage has a cache
entry under that name (UsePackage stores the resolved package in the same
step that selects it), so the unchecked cache reads in Services and
Messages never hit a missing entry: the modelled panic is unreachable. -/
theorem C10_cache_never_missing (e : Env) (hr : Reachable e) :
    (e.currentPackage ≠ "" → (cacheLookup e.currentPackage e.cachePkg).isSome) ∧
    e.services ≠ .panic ∧ e.messages ≠ .panic := by
  have hinv : e.currentPackage ≠ "" → (cacheLookup e.currentPackage e.cachePkg).isSome := by
    induction hr with
    | new pkgs hs =>
      intro hcp
      exact absurd (new_currentPackage pkgs hs) hcp
    | fromServices svcs msgs hs env heq =>
      intro _
      have hf := newFromServices_fields svcs msgs hs env heq
      rw [hf.2.1, hf.2.2.2]
      rfl
    | usePackage e n hr ih =>
      rcases usePackage_state e n with h | ⟨p, hmem, hname, h⟩
      · rw [h]
        exact ih
      · rw [h]
        intro _
        show (cacheLookup n (cacheInsert n p e.cachePkg)).isSome
        rw [cacheLookup_insert_self]
        rfl
    | useService e n hr ih =>
      rcases useService_state e n with h | ⟨hcp, h⟩ | ⟨p, hmem, h | h⟩
      · rw [h]
        exact ih
      · rw [h]
        exact ih
      · rw [h]
        intro _
        show (cacheLookup p.name (cacheInsert p.name p e.cachePkg)).isSome
        rw [cacheLookup_insert_self]
        rfl
      · rw [h]
        intro _
        show (cacheLookup p.name (cacheInsert p.name p e.cachePkg)).isSome
        rw [cacheLookup_insert_self]
        rfl
    | addHeader e h hr ih => exact ih
    | removeHeader e k hr ih => exact ih
  refine ⟨hinv, ?_, ?_⟩
  · by_cases hcp : e.currentPackage = ""
    · rw [Env.services, if_pos hcp]
      simp
    · rcases Option.isSome_iff_exists.mp (hinv hcp) with ⟨p, hp⟩
      rw [services_of_cache e p hcp hp]
      simp
  · by_cases hcp : e.currentPackage = ""
    · rw [Env.messages, if_pos hcp]
      simp
    · rcases Option.isSome_iff_exists.mp (hinv hcp) with ⟨p, hp⟩
      rw [messages_of_cache e p hcp hp]
      simp

/-- Witness for C10 at a concrete reachable state with a package selected. -/
theorem C10_cache_never_missing_witness :
    (cacheLookup ((Env.new [⟨"p", [], []⟩] []).usePackage "p").2.currentPackage
      ((Env.new [⟨"p", [], []⟩] []).usePackage "p").2.cachePkg).isSome ∧
    ((Env.new [⟨"p", [], []⟩] []).usePackage "p").2.services ≠ .panic := by
  have h := C10_cache_never_missing ((Env.new [⟨"p", [], []⟩] []).usePackage "p").2
    (Reachable.usePackage _ "p" (Reachable.new _ _))
  exact ⟨h.1 (by decide), h.2.1⟩

end Evans
